import Mathlib

/-!
Verification of the imputation/cleaning core of the Algerian real-estate
data pipeline (clean_data.py, real-estate-platform/data/clean_data.py,
real-estate-platform/data/advanced_imputation.py).

Missing values (pandas NaN) are modelled as `Option.none`; numeric cells are
exact rationals (`ℚ`).  The sklearn imputers (SimpleImputer, KNNImputer,
IterativeImputer) are third-party collaborators; they are modelled by their
documented transform contract: observed entries are returned unchanged and
each missing entry is filled with an estimate computed from the other
columns (the estimate itself is kept abstract as a function of the row
index).  All definitions are executable.
-/

namespace RealEstate

/-- Number of missing (null) entries of a column, `col.isnull().sum()`. -/
def missingCount {α : Type} (col : List (Option α)) : ℕ :=
  (col.filter (fun c => c.isNone)).length

/-- Number of non-null entries of a column, `col.notna().sum()`. -/
def nonNullCount {α : Type} (col : List (Option α)) : ℕ :=
  (col.filter (fun c => c.isSome)).length

/-- The observed (non-null) values of a column, in order (pandas `dropna`). -/
def observed {α : Type} (col : List (Option α)) : List α :=
  col.filterMap id

/-- Sum of a list of rationals. -/
def qsum (l : List ℚ) : ℚ := l.foldr (fun a b => a + b) 0

/-- Arithmetic mean (callers guard against the empty list). -/
def qmean (l : List ℚ) : ℚ := qsum l / (l.length : ℚ)

/-- Insert into a sorted list of rationals (ascending). -/
def insortQ (a : ℚ) : List ℚ → List ℚ
  | [] => [a]
  | b :: l => if a ≤ b then a :: b :: l else b :: insortQ a l

/-- Insertion sort, ascending. -/
def sortQ (l : List ℚ) : List ℚ := l.foldr insortQ []

/-- pandas `Series.median()` over the non-null values: middle element of the
sorted list for odd length, average of the two middle elements for even
length, `none` for the empty list. -/
def median (l : List ℚ) : Option ℚ :=
  let s := sortQ l
  let n := s.length
  if n = 0 then none
  else if n % 2 = 1 then s.get? (n / 2)
  else
    match s.get? (n / 2 - 1), s.get? (n / 2) with
    | some a, some b => some ((a + b) / 2)
    | _, _ => none

/-!  ### Price normalization (clean_data.py, `normalize_price`, lines 36-59)  -/

/-- Function normalize_price of clean_data.py: converts a raw price and its unit
tag to Algerian Dinar base units.  A missing or non-positive raw price gives
missing; a missing or unrecognized unit tag falls through to the final
`else` branch which returns the raw price unchanged. -/
def normalize_price (price : Option ℚ) (unit : Option String) : Option ℚ :=
  match price with
  | none => none
  | some p =>
    if p ≤ 0 then none
    else if unit = some "MILLION" then some (p * 1000000)
    else if unit = some "BILLION" then some (p * 1000000000)
    else if unit = some "UNIT" then some p
    else if unit = some "UNIT_PER_SQUARE" then some p
    else if unit = some "MILLION_PER_SQUARE" then some (p * 1000000)
    else some p

/-!  ### Surface and room cleaning (clean_data.py, lines 161-181 and 232-250)  -/

/-- Model of re.sub removing bracket and quote characters: drop brackets and single quotes
(the quote character is written via its code point 39). -/
def stripBracketsQuotes (s : List Char) : List Char :=
  s.filter (fun c => !(c = '[' || c = ']' || c = Char.ofNat 39))

/-- Longest leading run of decimal digits. -/
def takeDigits : List Char → List Char
  | [] => []
  | c :: rest => if c.isDigit then c :: takeDigits rest else []

/-- Model of the digit-run search: the first maximal run of decimal digits. -/
def firstDigitRun : List Char → Option (List Char)
  | [] => none
  | c :: rest =>
    if c.isDigit then some (c :: takeDigits rest) else firstDigitRun rest

/-- Decimal value of a digit run (`int(...)`). -/
def digitsToNat (ds : List Char) : ℕ :=
  ds.foldl (fun n c => n * 10 + (c.toNat - 48)) 0

/-- Function extract_rooms (clean_data.py, lines 232-250): missing input gives
missing; otherwise strip brackets/quotes, take the first integer token and
keep it only if it lies in [1, 20]. -/
def extract_rooms (roomsStr : Option String) : Option ℕ :=
  match roomsStr with
  | none => none
  | some s =>
    match firstDigitRun (stripBracketsQuotes s.data) with
    | some ds =>
      let n := digitsToNat ds
      if 1 ≤ n ∧ n ≤ 20 then some n else none
    | none => none

/-- clean_data.py lines 180-181: `surface_mask = (>= 5) & (<= 5000)` and
`df.loc[~surface_mask, 'CleanSurface'] = nan`.  A NaN entry fails the mask
and is (re)set to NaN; an out-of-bounds entry becomes NaN, not clamped. -/
def surfaceBoundsMask (col : List (Option ℚ)) : List (Option ℚ) :=
  col.map (fun c =>
    match c with
    | some v => if 5 ≤ v ∧ v ≤ 5000 then some v else none
    | none => none)

/-!  ### Row/Range filters  -/

/-- Keep-predicate of `filter_realistic_prices` (platform clean_data.py,
lines 115-122): `df[(df[col] >= min_price) & (df[col] <= max_price)]`.
A NaN price compares `False` on both sides, so a missing price is NOT kept. -/
def keep_realistic_price (minPrice maxPrice : ℚ) (p : Option ℚ) : Bool :=
  match p with
  | some v => decide (minPrice ≤ v) && decide (v ≤ maxPrice)
  | none => false

/-- Function filter_realistic_prices (platform clean_data.py, lines 115-122) on the
price column, default bounds 10 000 and 50 000 000. -/
def filter_realistic_prices (minPrice maxPrice : ℚ) (col : List (Option ℚ)) :
    List (Option ℚ) :=
  col.filter (keep_realistic_price minPrice maxPrice)

/-- Predicate for per-square-metre price units, from
`df['PriceUnit'].isin(['UNIT_PER_SQUARE', 'MILLION_PER_SQUARE'])`
(clean_data.py line 87). -/
def perSqmUnit (u : Option String) : Bool :=
  u = some "UNIT_PER_SQUARE" || u = some "MILLION_PER_SQUARE"

/-- Keep-predicate of the main pipeline's price filter (clean_data.py,
lines 89-106): regular prices must lie in [100 000, 1e9] OR be missing,
per-square-metre prices in [5 000, 2e6] OR be missing. -/
def keep_price_main (p : Option ℚ) (u : Option String) : Bool :=
  let validRegular :=
    (match p with
     | some v => decide (100000 ≤ v) && decide (v ≤ 1000000000)
     | none => false) || p.isNone
  let validPerSqm :=
    (match p with
     | some v => decide (5000 ≤ v) && decide (v ≤ 2000000)
     | none => false) || p.isNone
  (!perSqmUnit u && validRegular) || (perSqmUnit u && validPerSqm)

/-- Keep-predicate of `extract_surface_info` (platform clean_data.py,
lines 124-137): `(df['Surface'].isna()) | ((>= 5) & (<= 10000))`. -/
def keep_surface_info (s : Option ℚ) : Bool :=
  s.isNone ||
    (match s with
     | some v => decide (5 ≤ v) && decide (v ≤ 10000)
     | none => false)

/-- Keep-predicate of `extract_room_info` (platform clean_data.py,
lines 139-155): `(df[col].isna()) | ((>= 0) & (<= 20))`. -/
def keep_room_info (r : Option ℚ) : Bool :=
  r.isNone ||
    (match r with
     | some v => decide (0 ≤ v) && decide (v ≤ 20)
     | none => false)

/-!  ### Derived feature: price per square metre  -/

/-- clean_data.py lines 321-325:
`np.where(Surface.notna() & (Surface > 0), Price / Surface, nan)`.
When the condition holds but the price is NaN, NaN/surface is NaN. -/
def pricePerSqm_where (p s : Option ℚ) : Option ℚ :=
  match s with
  | some sv => if 0 < sv then p.map (fun pv => pv / sv) else none
  | none => none

/-- Function add_derived_features (platform clean_data.py, lines 192-197):
`Price / Surface` with pandas NaN propagation, then `±inf` replaced by NaN.
A zero surface yields ±inf (or NaN for 0/0), hence missing either way; a
negative surface yields an ordinary finite quotient. -/
def add_price_per_sqm (p s : Option ℚ) : Option ℚ :=
  match p, s with
  | some pv, some sv => if sv = 0 then none else some (pv / sv)
  | _, _ => none

/-!  ### Strategy selection (advanced_imputation.py, `AdvancedImputer`)  -/

/-- Decides `abs(df[column].skew()) > 1` (advanced_imputation.py line 86)
over the observed values.  pandas computes the adjusted Fisher-Pearson
skewness G1 = sqrt(n*(n-1))/(n-2) * m3/m2^(3/2) (central moments m2, m3,
skipna), which is NaN for n < 3 and 0 for constant data, so both compare
`False` against 1.  |G1| > 1 is encoded exactly over ℚ by squaring:
G1^2 > 1  ⟺  m3^2 * n * (n-1) > m2^3 * (n-2)^2. -/
def skewAbsGt1 (l : List ℚ) : Bool :=
  let n := l.length
  if n < 3 then false
  else
    let μ := qmean l
    let m2 := qsum (l.map (fun x => (x - μ) * (x - μ))) / (n : ℚ)
    let m3 := qsum (l.map (fun x => (x - μ) * (x - μ) * (x - μ))) / (n : ℚ)
    if m2 = 0 then false
    else
      decide (m3 * m3 * n * (n - 1) >
        m2 * m2 * m2 * (((n : ℚ) - 2) * ((n : ℚ) - 2)))

/-- The regression model used by the iterative imputer. -/
inductive Estimator
  | randomForest
deriving DecidableEq

/-- Imputation strategy chosen for a numerical column, with its fitted
configuration (advanced_imputation.py lines 83-102). -/
inductive NumStrategy
  | simple (useMedian : Bool)
  | knn (k : ℕ) (distanceWeighted : Bool)
  | iterative (est : Estimator) (maxIter : ℕ)
deriving DecidableEq

/-- Method AdvancedImputer.smart_impute_numerical with the default
`strategy='auto'` (advanced_imputation.py lines 63-104).  `dfComplete`
stands for `len(df.dropna())` — the number of rows of the whole frame with
no missing value in any column — the only information the function reads
from the frame beyond the target column itself.  An empty frame gives a NaN
missing percentage in numpy, which fails both `< 5` and `< 20`, hence the
iterative branch. -/
def smart_impute_numerical (dfComplete : ℕ) (col : List (Option ℚ)) :
    NumStrategy :=
  let n := col.length
  let m := missingCount col
  if n = 0 then .iterative .randomForest 10
  else if (m : ℚ) * 100 / n < 5 then .simple (skewAbsGt1 (observed col))
  else if (m : ℚ) * 100 / n < 20 then
    .knn (min 5 (max 3 (Nat.sqrt dfComplete))) true
  else .iterative .randomForest 10

/-!  ### Column imputation (AdvancedImputer.fit_transform, lines 126-222)

`fit_transform` processes each target column in turn and writes back only
that column, so the engine is embedded per target column over the frame of
same-kind columns.  The estimates a multivariate sklearn imputer produces
for the missing entries depend on the other columns; they are abstracted
as a function from column name and row index to the estimate, while the
documented parts of the transform contract are explicit in the
definitions: observed entries come back unchanged, missing entries are
filled, and features without a single observed value at fit are discarded,
so the transform output holds only the kept columns.  The code then reads
`imputed_values[:, col_index]` with `col_index` computed on the input
subset, which lands on the wrong output column (or past the output) as
soon as a discarded column precedes the target.  -/

/-- Map a column through an index-aware cell transformer (the common shape
of every write-back below). -/
def fillWith {α β : Type} (g : ℕ → α → β) : ℕ → List α → List β
  | _, [] => []
  | i, c :: rest => g i c :: fillWith g (i + 1) rest

/-- The statistic of `SimpleImputer(strategy='median'/'mean')` over the
observed values (none for an all-missing column, which sklearn discards). -/
def simpleStat (useMedian : Bool) (col : List (Option ℚ)) : Option ℚ :=
  if useMedian then median (observed col)
  else if observed col = [] then none else some (qmean (observed col))

/-- Model of SimpleImputer (mean/median) fit_transform on the single
target column (line 165): every missing entry becomes the column statistic;
an all-missing column has no statistic and is left unchanged. -/
def simpleFill (useMedian : Bool) (col : List (Option ℚ)) : List (Option ℚ) :=
  match simpleStat useMedian col with
  | some v => fillWith (fun _ c => some (c.getD v)) 0 col
  | none => col

/-- The imputer's transform output for one kept column: observed entries
come back unchanged, the missing entry at row `i` is filled with the
estimate `f i`. -/
def multiFill (f : ℕ → ℚ) (col : List (Option ℚ)) : List (Option ℚ) :=
  fillWith (fun i c =>
    match c with
    | some v => some v
    | none => some (f i)) 0 col

/-!  ### Categorical column imputation  -/

/-- Lexicographic char-list comparison (the order `np.unique` sorts by). -/
def charListLe : List Char → List Char → Bool
  | [], _ => true
  | _ :: _, [] => false
  | a :: as, b :: bs =>
    if a.toNat < b.toNat then true
    else if b.toNat < a.toNat then false
    else charListLe as bs

/-- String comparison via the underlying character lists. -/
def strLe (a b : String) : Bool := charListLe a.data b.data

/-- Insert into a sorted list of strings. -/
def insortStr (a : String) : List String → List String
  | [] => [a]
  | b :: l => if strLe a b then a :: b :: l else b :: insortStr a l

/-- Insertion sort for strings, ascending. -/
def sortStr (l : List String) : List String := l.foldr insortStr []

/-- Model of the fitted LabelEncoder classes: the sorted distinct observed values of
the column. -/
def classesOf (col : List (Option String)) : List String :=
  sortStr (observed col).dedup

/-- Position of a value in the class list (`LabelEncoder.transform` for a
value that occurs in the classes). -/
def idxOf (v : String) : List String → ℕ
  | [] => 0
  | b :: l => if b = v then 0 else idxOf v l + 1

/-- Model of LabelEncoder.inverse_transform at an integer code: the class at that
index, missing when the code is out of range. -/
def decodeCat (cls : List String) (i : ℤ) : Option String :=
  if 0 ≤ i then cls.get? i.toNat else none

/-- Model of np.round: round half to even (banker's rounding). -/
def npRound (q : ℚ) : ℤ :=
  let f := Int.floor q
  let r := q - f
  if r < 1 / 2 then f
  else if 1 / 2 < r then f + 1
  else if f % 2 = 0 then f else f + 1

/-- Model of the SimpleImputer most_frequent statistic: the most frequent
observed value, ties broken by the smallest (the classes are scanned in
ascending order and replaced only on a strictly greater count). -/
def modeVal (col : List (Option String)) : Option String :=
  (classesOf col).foldl (fun best c =>
    match best with
    | none => some c
    | some b =>
      if (observed col).count b < (observed col).count c then some c
      else best) none

/-!  ### impute_real_estate_data (advanced_imputation.py, lines 257-283)  -/

/-- A named numeric column of the frame. -/
structure NumColumn where
  name : String
  values : List (Option ℚ)
deriving DecidableEq

/-- The imputation configuration `impute_real_estate_data` builds (or is
passed by `clean_data`). -/
structure ImpConfig where
  price_strategy : String
  location_strategy : String
  surface_strategy : String
  rooms_strategy : String
  preserve_original : Bool
deriving DecidableEq

/-- The default config of `impute_real_estate_data` (lines 261-268). -/
def defaultImpConfig : ImpConfig :=
  ⟨"knn", "mode", "iterative", "knn", true⟩

/-- The per-column strategies `AdvancedImputer.fit_transform` records in
`imputation_stats[column]['strategy']` for the numeric columns of a frame:
every numeric column with at least one missing value is processed with the
auto choice of `smart_impute_numerical` (fit_transform is called without a
per-column strategy argument). -/
def fit_transform_strategies (dfComplete : ℕ) (cols : List NumColumn) :
    List (String × NumStrategy) :=
  (cols.filter (fun c => decide (missingCount c.values ≠ 0))).map
    (fun c => (c.name, smart_impute_numerical dfComplete c.values))

/-- Function impute_real_estate_data (advanced_imputation.py lines 257-283): builds
the domain-specific config (price 'knn', location 'mode', surface
'iterative', rooms 'knn') but then calls
`imputer.fit_transform(df, preserve_original=config['preserve_original'])`
— no target columns and no strategy overrides are passed, so only
`preserve_original` is consulted and every column gets the auto strategy.
The recorded strategies are therefore exactly `fit_transform_strategies`,
whatever the config says. -/
def impute_real_estate_data_strategies (config : ImpConfig) (dfComplete : ℕ)
    (cols : List NumColumn) : List (String × NumStrategy) :=
  fit_transform_strategies dfComplete cols

/-- Strategy recorded for a given column name. -/
def strategyFor (stats : List (String × NumStrategy)) (name : String) :
    Option NumStrategy :=
  (stats.find? (fun p => p.1 = name)).map (fun p => p.2)

/-!  ### Frame-level write-back of fit_transform  -/

/-- Lookup of a named numeric column (the target column inside the numeric
subset; first occurrence, as with a pandas column lookup). -/
def lookupCol (cols : List NumColumn) (target : String) : Option NumColumn :=
  cols.find? (fun c => c.name = target)

/-- Column names of the numeric subset, in frame order. -/
def colNames (cols : List NumColumn) : List String :=
  cols.map (fun c => c.name)

/-- The features the sklearn imputer keeps: those with at least one
observed value at fit (features that are entirely missing are
discarded). -/
def keptColumns (cols : List NumColumn) : List NumColumn :=
  cols.filter (fun c => decide (nonNullCount c.values ≠ 0))

/-- The numeric multivariate write-back (lines 155-162):
`imputed_values = imputer.fit_transform(numerical_subset)` holds the kept
columns, each with observed entries unchanged and missing entries filled
with estimates; the code selects `imputed_values[:, col_index]` with
`col_index = numerical_subset.columns.get_loc(column)` computed on the
INPUT subset, so when a discarded (all-missing) column precedes the target
the selection silently lands on a different column, and when the index
runs past the output width numpy raises (modelled as `none`). -/
def multiWriteBack (f : String → ℕ → ℚ) (cols : List NumColumn)
    (target : String) : Option (List (Option ℚ)) :=
  ((keptColumns cols).map (fun c => multiFill (f c.name) c.values)).get?
    (idxOf target (colNames cols))

/-- Numeric-column branch of `AdvancedImputer.fit_transform`
(advanced_imputation.py lines 148-172) for one target column of the
numeric frame: a target without missing values is skipped; the simple
strategy fills from the single column; the knn/iterative strategies go
through the positional multivariate write-back.  `none` models an uncaught
exception (unknown target, or an out-of-range positional selection). -/
def imputeNumColumnInFrame (f : String → ℕ → ℚ) (dfComplete : ℕ)
    (cols : List NumColumn) (target : String) : Option (List (Option ℚ)) :=
  match lookupCol cols target with
  | none => none
  | some c =>
    if missingCount c.values = 0 then some c.values
    else
      match smart_impute_numerical dfComplete c.values with
      | .simple useMedian => some (simpleFill useMedian c.values)
      | _ => multiWriteBack f cols target

/-- A named categorical column of the frame. -/
structure CatColumn where
  name : String
  values : List (Option String)
deriving DecidableEq

/-- Lookup of a named categorical column (first occurrence). -/
def lookupCatCol (cols : List CatColumn) (target : String) :
    Option CatColumn :=
  cols.find? (fun c => c.name = target)

/-- Column names of the categorical subset, in frame order. -/
def catColNames (cols : List CatColumn) : List String :=
  cols.map (fun c => c.name)

/-- Label encoding of one categorical column onto its class indices
(lines 186-196): observed entries become their class index (as the float
the imputer works on), missing entries stay missing.  A column with no
observed value is skipped by the `non_null_mask.any()` guard and stays
entirely missing, so the imputer discards it. -/
def encodeColumn (col : List (Option String)) : List (Option ℚ) :=
  col.map (fun c =>
    c.map (fun v => ((idxOf v (classesOf col) : ℤ) : ℚ)))

/-- The categorical features the KNN imputer keeps (those with at least
one observed value). -/
def keptCatColumns (cols : List CatColumn) : List CatColumn :=
  cols.filter (fun c => decide (nonNullCount c.values ≠ 0))

/-- The categorical KNN write-back (lines 181-209): encode every
categorical column, KNN-impute (kept columns only: observed codes
unchanged, estimates at missing rows), select the column at the target's
INPUT-subset position, `np.round` each entry and decode it through the
encoder fitted on the TARGET column.  An out-of-range selection raises in
numpy (modelled as `none`); an out-of-range code makes inverse_transform
raise (modelled as a missing entry). -/
def catMultiWriteBack (f : String → ℕ → ℚ) (cols : List CatColumn)
    (target : String) : Option (List (Option String)) :=
  match lookupCatCol cols target,
      ((keptCatColumns cols).map
          (fun c => multiFill (f c.name) (encodeColumn c.values))).get?
        (idxOf target (catColNames cols)) with
  | some t, some sel =>
    some (sel.map (fun e =>
      e.bind (fun q => decodeCat (classesOf t.values) (npRound q))))
  | _, _ => none

/-- Categorical-column branch of `AdvancedImputer.fit_transform`
(advanced_imputation.py lines 106-124 and 175-220) for one target column
of the categorical frame: under 10% missing the mode fill on the single
column, otherwise the positional encode/KNN/round/decode write-back. -/
def imputeCatColumnInFrame (f : String → ℕ → ℚ) (cols : List CatColumn)
    (target : String) : Option (List (Option String)) :=
  match lookupCatCol cols target with
  | none => none
  | some c =>
    if missingCount c.values = 0 then some c.values
    else if (missingCount c.values : ℚ) * 100 / c.values.length < 10 then
      some (match modeVal c.values with
        | some m => fillWith (fun _ x => some (x.getD m)) 0 c.values
        | none => c.values)
    else catMultiWriteBack f cols target

/-!  ### Surface imputation step (clean_data.py, lines 183-227)

The step works on the columns NormalizedPrice, Wilaya, TransactionType and
CleanSurface.  Wilaya and TransactionType are label-encoded from their
string form (`astype(str)` maps NaN to the string "nan"), so their encoded
columns are never null and are always available features; NormalizedPrice
is an available feature unless it is entirely null.  -/

/-- One row of the frame at the surface-imputation step (step 7 of
`clean_real_estate_data`): Wilaya and TransactionType are non-null strings
by this point (step 4 filled them with "Unknown" sentinels). -/
structure SRow where
  price : Option ℚ
  wilaya : String
  trans : String
  surface : Option ℚ
deriving DecidableEq

/-- The NormalizedPrice column belongs to `available_features` iff it is not
entirely null (line 204). -/
def priceAvailable (t : List SRow) : Bool :=
  t.any (fun r => r.price.isSome)

/-- A row of `imputation_data` (available features + CleanSurface) with no
missing value — one of the rows `imputation_data.dropna()` keeps. -/
def isCompleteSRow (inclPrice : Bool) (r : SRow) : Bool :=
  (!inclPrice || r.price.isSome) && r.surface.isSome

/-- The count `imputation_data.dropna().shape[0]` (line 212). -/
def completeCount (t : List SRow) : ℕ :=
  (t.filter (isCompleteSRow (priceAvailable t))).length

/-- The count `surface_missing_mask.sum()` (line 186). -/
def missingSurfaceCount (t : List SRow) : ℕ :=
  (t.filter (fun r => r.surface.isNone)).length

/-- The observed surface values of the rows of one wilaya. -/
def surfacesInWilaya (t : List SRow) (w : String) : List ℚ :=
  (t.filter (fun r => r.wilaya = w)).filterMap (fun r => r.surface)

/-- Lines 218-222: for each wilaya, fill the originally-missing surfaces of
its rows with the median surface of that wilaya when it exists.  The loop
over `df['Wilaya'].unique()` touches each row once (each row belongs to one
wilaya) and the wilaya median only reads rows of the same wilaya, so the
sequential loop is the per-row map below. -/
def wilayaMedianFill (t : List SRow) : List SRow :=
  t.map (fun r =>
    if r.surface.isNone then
      match median (surfacesInWilaya t r.wilaya) with
      | some m => { r with surface := some m }
      | none => r
    else r)

/-- Lines 224-227: fill the surfaces still missing with the global median
of the (partially filled) surface column. -/
def globalMedianFill (t : List SRow) : List SRow :=
  match median (t.filterMap (fun r => r.surface)) with
  | some m =>
    t.map (fun r =>
      if r.surface.isNone then { r with surface := some m } else r)
  | none => t

/-- KNN write-back of the `> 10` branch (lines 213-214): the imputed last
column replaces CleanSurface — observed entries unchanged, missing entry at
row `i` filled with the KNN estimate `f i` (sklearn transform contract). -/
def knnSurfaceFill (f : ℕ → ℚ) : ℕ → List SRow → List SRow
  | _, [] => []
  | i, r :: rest =>
    (if r.surface.isNone then { r with surface := some (f i) } else r) ::
      knnSurfaceFill f (i + 1) rest

/-- Which method the surface step used. -/
inductive SurfMethod
  | skip
  | knn
  | fallback
deriving DecidableEq

/-- The surface imputation step (clean_data.py lines 183-227): nothing to do
when no surface is missing; KNN when `imputation_data.dropna().shape[0] > 10`;
otherwise the group-wise-median fallback followed by the global-median pass.
(`available_features` always contains the two encoded columns, so the
`len(available_features) > 0` guard always holds.) -/
def surface_impute_step (f : ℕ → ℚ) (t : List SRow) :
    SurfMethod × List SRow :=
  if missingSurfaceCount t = 0 then (.skip, t)
  else if 10 < completeCount t then (.knn, knnSurfaceFill f 0 t)
  else (.fallback, globalMedianFill (wilayaMedianFill t))

/-!  ### clean_data (platform clean_data.py, lines 26-86)  -/

/-- The critical columns of one row (`critical_columns =
['TransactionType', 'Location', 'Wilaya', 'Price']`, line 40). -/
structure CRow where
  transactionType : Option String
  location : Option String
  wilaya : Option String
  price : Option ℚ
deriving DecidableEq

/-- All four critical fields missing (`dropna(..., how='all')` drops such a
row). -/
def criticalAllMissing (r : CRow) : Bool :=
  r.transactionType.isNone && r.location.isNone && r.wilaya.isNone &&
    r.price.isNone

/-- At least one critical field missing (`dropna(...)` with the default
`how='any'` drops such a row). -/
def criticalAnyMissing (r : CRow) : Bool :=
  r.transactionType.isNone || r.location.isNone || r.wilaya.isNone ||
    r.price.isNone

/-- Function clean_data (platform clean_data.py, lines 26-86): first drop
the rows with ALL critical columns missing (line 41, `how='all'`), then
attempt the whole-table imputation.  The attempt is configured with
`preserve_original: False`, so `fit_transform` aliases the caller's table
and mutates it in place column by column; an exception raised mid-loop
leaves the earlier columns already imputed.  The attempt is therefore
modelled as returning either the fully imputed table or, on an exception,
the error message together with the table AS MUTATED SO FAR (an exception
raised before any write leaves it equal to its input).  On success the
result is kept; on an exception the fallback (line 83) runs
`df.dropna(subset=critical_columns)` — the default `how='any'`, dropping
every row with at least one missing critical field — on that
partially-mutated table, and continues. -/
def clean_data
    (impute : List CRow → Except (String × List CRow) (List CRow))
    (df : List CRow) : List CRow :=
  let df1 := df.filter (fun r => !criticalAllMissing r)
  match impute df1 with
  | .ok d => d
  | .error p => p.2.filter (fun r => !criticalAnyMissing r)

/-!  ### Helper lemmas about `fillWith` and the counts  -/

theorem fillWith_get? {α β : Type} (g : ℕ → α → β) :
    ∀ (i j : ℕ) (l : List α),
      (fillWith g i l).get? j = (l.get? j).map (g (i + j)) := by
  intro i j l
  induction l generalizing i j with
  | nil => simp [fillWith]
  | cons c rest ih =>
    cases j with
    | zero => simp [fillWith]
    | succ k =>
      have hik : i + 1 + k = i + (k + 1) := by omega
      simp only [fillWith, List.get?_cons_succ]
      rw [ih (i + 1) k, hik]

theorem nonNullCount_cons {α : Type} (a : Option α) (l : List (Option α)) :
    nonNullCount (a :: l) = (if a.isSome then 1 else 0) + nonNullCount l := by
  simp only [nonNullCount, List.filter_cons]
  cases ha : a.isSome <;> simp [Nat.add_comm]

theorem nonNullCount_le_fillWith {α β : Type}
    (g : ℕ → Option α → Option β) :
    ∀ (i : ℕ) (l : List (Option α)),
      (∀ j c, c ∈ l → c.isSome = true → (g j c).isSome = true) →
      nonNullCount l ≤ nonNullCount (fillWith g i l) := by
  intro i l
  induction l generalizing i with
  | nil => intro _; exact le_refl _
  | cons c rest ih =>
    intro h
    have hrest := ih (i + 1) (fun j d hd => h j d (List.mem_cons_of_mem _ hd))
    simp only [fillWith, nonNullCount_cons]
    cases hc : c.isSome with
    | true =>
      rw [h i c (List.mem_cons_self _ _) hc]
      simpa using Nat.add_le_add_left hrest 1
    | false =>
      cases hgc : (g i c).isSome <;> simp <;> omega

theorem npRound_intCast (k : ℤ) : npRound ((k : ℤ) : ℚ) = k := by
  simp only [npRound]
  rw [Int.floor_intCast]
  norm_num

theorem get?_idxOf (v : String) :
    ∀ (l : List String), v ∈ l → l.get? (idxOf v l) = some v := by
  intro l
  induction l with
  | nil => intro hl; cases hl
  | cons b t ih =>
    intro hl
    by_cases hb : b = v
    · subst hb
      simp [idxOf]
    · rcases List.mem_cons.mp hl with h1 | h2
      · exact absurd h1.symm hb
      · simp only [idxOf, if_neg hb, List.get?_cons_succ]
        exact ih h2

theorem mem_insortStr (a x : String) :
    ∀ (l : List String), x ∈ insortStr a l ↔ x = a ∨ x ∈ l := by
  intro l
  induction l with
  | nil => simp [insortStr]
  | cons b t ih =>
    simp only [insortStr]
    by_cases h : strLe a b
    · rw [if_pos h]
      simp [List.mem_cons]
    · rw [if_neg h]
      simp only [List.mem_cons, ih]
      tauto

theorem mem_sortStr (x : String) :
    ∀ (l : List String), x ∈ sortStr l ↔ x ∈ l := by
  intro l
  induction l with
  | nil => simp [sortStr]
  | cons b t ih =>
    simp only [sortStr, List.foldr_cons] at *
    rw [mem_insortStr]
    simp [List.mem_cons, ih]

theorem mem_classesOf (v : String) (col : List (Option String))
    (h : v ∈ observed col) : v ∈ classesOf col := by
  unfold classesOf
  rw [mem_sortStr]
  exact List.mem_dedup.mpr h

theorem decodeCat_natCast (cls : List String) (n : ℕ) :
    decodeCat cls ((n : ℕ) : ℤ) = cls.get? n := by
  unfold decodeCat
  rw [if_pos (Int.natCast_nonneg n)]
  simp

/-- An observed categorical value round-trips through encode, round and
decode. -/
theorem catKnn_cell_observed (cls : List String) (w : String)
    (hmem : w ∈ cls) :
    decodeCat cls (npRound ((idxOf w cls : ℤ) : ℚ)) = some w := by
  rw [npRound_intCast, decodeCat_natCast]
  exact get?_idxOf w cls hmem

theorem simpleFill_get?_observed (b : Bool) (col : List (Option ℚ)) (i : ℕ)
    (v : ℚ) (h : col.get? i = some (some v)) :
    (simpleFill b col).get? i = some (some v) := by
  unfold simpleFill
  cases hstat : simpleStat b col with
  | none => exact h
  | some w =>
    rw [fillWith_get?, h]
    rfl

theorem nonNullCount_le_simpleFill (b : Bool) (col : List (Option ℚ)) :
    nonNullCount col ≤ nonNullCount (simpleFill b col) := by
  unfold simpleFill
  cases hstat : simpleStat b col with
  | none => exact le_refl _
  | some w =>
    apply nonNullCount_le_fillWith
    intro j c _ _
    rfl

theorem multiFill_get?_observed (f : ℕ → ℚ) (col : List (Option ℚ)) (i : ℕ)
    (v : ℚ) (h : col.get? i = some (some v)) :
    (multiFill f col).get? i = some (some v) := by
  unfold multiFill
  rw [fillWith_get?, h]
  rfl

theorem nonNullCount_le_multiFill (f : ℕ → ℚ) (col : List (Option ℚ)) :
    nonNullCount col ≤ nonNullCount (multiFill f col) := by
  unfold multiFill
  apply nonNullCount_le_fillWith
  intro j c _ hc
  cases c with
  | none => simp at hc
  | some w => rfl

theorem fillWith_map_left {α α2 β : Type} (m : α → α2) (g : ℕ → α2 → β) :
    ∀ (i : ℕ) (l : List α),
      fillWith g i (l.map m) = fillWith (fun j c => g j (m c)) i l := by
  intro i l
  induction l generalizing i with
  | nil => rfl
  | cons c rest ih =>
    simp only [List.map_cons, fillWith]
    rw [ih]

theorem fillWith_map_right {α β γ : Type} (g : ℕ → α → β) (d : β → γ) :
    ∀ (i : ℕ) (l : List α),
      (fillWith g i l).map d = fillWith (fun j c => d (g j c)) i l := by
  intro i l
  induction l generalizing i with
  | nil => rfl
  | cons c rest ih =>
    simp only [fillWith, List.map_cons]
    rw [ih]

/-- A pandas positional column lookup agrees with a name lookup: when
`find?` by name returns a column, indexing the mapped column list at the
name's first position returns the image of that column. -/
theorem find?_map_get?_align {α β : Type} (nm : α → String) (g : α → β) :
    ∀ (cols : List α) (target : String) (c : α),
      cols.find? (fun x => nm x = target) = some c →
      (cols.map g).get? (idxOf target (cols.map nm)) = some (g c) := by
  intro cols
  induction cols with
  | nil => intro t c h; cases h
  | cons d rest ih =>
    intro t c h
    by_cases hd : nm d = t
    · have hfind : (d :: rest).find? (fun x => nm x = t) = some d :=
        List.find?_cons_of_pos _ (by simp [hd])
      rw [hfind] at h
      cases h
      simp only [List.map_cons, idxOf, if_pos hd]
      rfl
    · have hfind : (d :: rest).find? (fun x => nm x = t) =
          rest.find? (fun x => nm x = t) :=
        List.find?_cons_of_neg _ (by simp [hd])
      rw [hfind] at h
      simp only [List.map_cons, idxOf, if_neg hd, List.get?_cons_succ]
      exact ih t c h

theorem keptColumns_eq_self (cols : List NumColumn)
    (h : ∀ c ∈ cols, nonNullCount c.values ≠ 0) :
    keptColumns cols = cols := by
  unfold keptColumns
  apply List.filter_eq_self.mpr
  intro c hc
  simpa using h c hc

theorem keptCatColumns_eq_self (cols : List CatColumn)
    (h : ∀ c ∈ cols, nonNullCount c.values ≠ 0) :
    keptCatColumns cols = cols := by
  unfold keptCatColumns
  apply List.filter_eq_self.mpr
  intro c hc
  simpa using h c hc

/-- When no numeric column is entirely missing, the positional write-back
does land on the target column. -/
theorem multiWriteBack_of_kept (f : String → ℕ → ℚ) (cols : List NumColumn)
    (target : String) (nc : NumColumn)
    (hkeep : ∀ c ∈ cols, nonNullCount c.values ≠ 0)
    (hfind : lookupCol cols target = some nc) :
    multiWriteBack f cols target = some (multiFill (f nc.name) nc.values) := by
  unfold multiWriteBack colNames
  rw [keptColumns_eq_self cols hkeep]
  have hfind2 : cols.find? (fun c => decide (c.name = target)) = some nc :=
    hfind
  exact find?_map_get?_align (fun c : NumColumn => c.name)
    (fun c => multiFill (f c.name) c.values) cols target nc hfind2

theorem imputeNumColumnInFrame_preserves (f : String → ℕ → ℚ)
    (dfComplete : ℕ) (cols : List NumColumn) (target : String)
    (nc : NumColumn)
    (hkeep : ∀ c ∈ cols, nonNullCount c.values ≠ 0)
    (hfind : lookupCol cols target = some nc) :
    ∃ newCol, imputeNumColumnInFrame f dfComplete cols target = some newCol ∧
      (∀ (i : ℕ) (v : ℚ), nc.values.get? i = some (some v) →
        newCol.get? i = some (some v)) ∧
      nonNullCount nc.values ≤ nonNullCount newCol := by
  have hval : imputeNumColumnInFrame f dfComplete cols target =
      (if missingCount nc.values = 0 then some nc.values
       else match smart_impute_numerical dfComplete nc.values with
         | .simple useMedian => some (simpleFill useMedian nc.values)
         | _ => multiWriteBack f cols target) := by
    unfold imputeNumColumnInFrame
    rw [hfind]
  rw [hval]
  by_cases h0 : missingCount nc.values = 0
  · rw [if_pos h0]
    exact ⟨nc.values, rfl, fun i v h => h, le_refl _⟩
  · rw [if_neg h0]
    cases hs : smart_impute_numerical dfComplete nc.values with
    | simple b =>
      exact ⟨simpleFill b nc.values, rfl,
        fun i v h => simpleFill_get?_observed b nc.values i v h,
        nonNullCount_le_simpleFill b nc.values⟩
    | knn k w =>
      rw [multiWriteBack_of_kept f cols target nc hkeep hfind]
      exact ⟨multiFill (f nc.name) nc.values, rfl,
        fun i v h => multiFill_get?_observed (f nc.name) nc.values i v h,
        nonNullCount_le_multiFill (f nc.name) nc.values⟩
    | iterative e m =>
      rw [multiWriteBack_of_kept f cols target nc hkeep hfind]
      exact ⟨multiFill (f nc.name) nc.values, rfl,
        fun i v h => multiFill_get?_observed (f nc.name) nc.values i v h,
        nonNullCount_le_multiFill (f nc.name) nc.values⟩

/-- When no categorical column is entirely missing, the categorical
write-back selects the target column, and the encode/impute/round/decode
pipeline collapses to an index-aware cell transformer on the target. -/
theorem catMultiWriteBack_of_kept (f : String → ℕ → ℚ)
    (cols : List CatColumn) (target : String) (cc : CatColumn)
    (hkeep : ∀ c ∈ cols, nonNullCount c.values ≠ 0)
    (hfind : lookupCatCol cols target = some cc) :
    catMultiWriteBack f cols target =
      some (fillWith (fun j c =>
        (match c.map
            (fun v => ((idxOf v (classesOf cc.values) : ℤ) : ℚ)) with
          | some q => some q
          | none => some (f cc.name j)).bind
          (fun q => decodeCat (classesOf cc.values) (npRound q)))
        0 cc.values) := by
  have hsel : ((keptCatColumns cols).map
      (fun c => multiFill (f c.name) (encodeColumn c.values))).get?
      (idxOf target (catColNames cols)) =
      some (multiFill (f cc.name) (encodeColumn cc.values)) := by
    unfold catColNames
    rw [keptCatColumns_eq_self cols hkeep]
    have hfind2 : cols.find? (fun c => decide (c.name = target)) = some cc :=
      hfind
    exact find?_map_get?_align (fun c : CatColumn => c.name)
      (fun c => multiFill (f c.name) (encodeColumn c.values))
      cols target cc hfind2
  have hcwb : catMultiWriteBack f cols target =
      some ((multiFill (f cc.name) (encodeColumn cc.values)).map
        (fun e =>
          e.bind (fun q => decodeCat (classesOf cc.values) (npRound q)))) := by
    unfold catMultiWriteBack
    rw [hfind, hsel]
  rw [hcwb]
  unfold multiFill encodeColumn
  rw [fillWith_map_left, fillWith_map_right]

theorem imputeCatColumnInFrame_preserves (f : String → ℕ → ℚ)
    (cols : List CatColumn) (target : String) (cc : CatColumn)
    (hkeep : ∀ c ∈ cols, nonNullCount c.values ≠ 0)
    (hfind : lookupCatCol cols target = some cc) :
    ∃ newCol, imputeCatColumnInFrame f cols target = some newCol ∧
      (∀ (i : ℕ) (v : String), cc.values.get? i = some (some v) →
        newCol.get? i = some (some v)) ∧
      nonNullCount cc.values ≤ nonNullCount newCol := by
  have hval : imputeCatColumnInFrame f cols target =
      (if missingCount cc.values = 0 then some cc.values
       else if (missingCount cc.values : ℚ) * 100 / cc.values.length < 10
       then
         some (match modeVal cc.values with
           | some m => fillWith (fun _ x => some (x.getD m)) 0 cc.values
           | none => cc.values)
       else catMultiWriteBack f cols target) := by
    unfold imputeCatColumnInFrame
    rw [hfind]
  rw [hval]
  by_cases h0 : missingCount cc.values = 0
  · rw [if_pos h0]
    exact ⟨cc.values, rfl, fun i v h => h, le_refl _⟩
  · rw [if_neg h0]
    by_cases h10 : (missingCount cc.values : ℚ) * 100 / cc.values.length < 10
    · rw [if_pos h10]
      cases hm : modeVal cc.values with
      | none => exact ⟨cc.values, rfl, fun i v h => h, le_refl _⟩
      | some m =>
        refine ⟨fillWith (fun _ x => some (x.getD m)) 0 cc.values, rfl,
          ?_, ?_⟩
        · intro i v h
          rw [fillWith_get?, h]
          rfl
        · apply nonNullCount_le_fillWith
          intro j c _ _
          rfl
    · rw [if_neg h10]
      rw [catMultiWriteBack_of_kept f cols target cc hkeep hfind]
      refine ⟨_, rfl, ?_, ?_⟩
      · intro i v h
        have hmem : v ∈ classesOf cc.values := by
          apply mem_classesOf
          exact List.mem_filterMap.mpr ⟨some v, List.get?_mem h, rfl⟩
        rw [fillWith_get?, h]
        show some (decodeCat (classesOf cc.values)
          (npRound ((idxOf v (classesOf cc.values) : ℤ) : ℚ))) =
          some (some v)
        rw [catKnn_cell_observed (classesOf cc.values) v hmem]
      · apply nonNullCount_le_fillWith
        intro j c hc hsome
        cases c with
        | none => simp at hsome
        | some w =>
          have hmem : w ∈ classesOf cc.values := by
            apply mem_classesOf
            exact List.mem_filterMap.mpr ⟨some w, hc, rfl⟩
          show (decodeCat (classesOf cc.values)
            (npRound ((idxOf w (classesOf cc.values) : ℤ) : ℚ))).isSome =
            true
          rw [catKnn_cell_observed (classesOf cc.values) w hmem]
          rfl

end RealEstate

namespace RealEstate

/-- C4 (functional correctness): price normalization returns missing when the
raw price is absent or non-positive; otherwise ×1e6 for MILLION, ×1e9 for
BILLION, unchanged for UNIT and UNIT_PER_SQUARE, ×1e6 for
MILLION_PER_SQUARE. -/
theorem c4_normalize_price_cases (p : ℚ) (u : Option String) (hp : 0 < p) :
    normalize_price none u = none ∧
    normalize_price (some 0) u = none ∧
    normalize_price (some (-p)) u = none ∧
    normalize_price (some p) (some "MILLION") = some (p * 1000000) ∧
    normalize_price (some p) (some "BILLION") = some (p * 1000000000) ∧
    normalize_price (some p) (some "UNIT") = some p ∧
    normalize_price (some p) (some "UNIT_PER_SQUARE") = some p ∧
    normalize_price (some p) (some "MILLION_PER_SQUARE") = some (p * 1000000) := by
  have hnp : ¬ p ≤ 0 := not_le.mpr hp
  refine ⟨rfl, by simp [normalize_price], by simp [normalize_price, le_of_lt, hp, neg_nonpos],
    ?_, ?_, ?_, ?_, ?_⟩ <;>
    simp [normalize_price, hnp]

/-- Witness for C4 at the spec scenario raw price 2.5, unit MILLION
(normalized price 2 500 000). -/
theorem c4_witness :
    (0 : ℚ) < 5 / 2 ∧
    normalize_price (some ((5 : ℚ) / 2)) (some "MILLION") = some 2500000 := by
  constructor
  · norm_num
  · have h := (c4_normalize_price_cases ((5 : ℚ) / 2) (some "MILLION") (by norm_num)).2.2.2.1
    rw [h]
    norm_num

/-- C10 (functional correctness): a present, strictly positive raw price
with a missing or unrecognized unit tag is returned unchanged (multiplier 1),
not treated as missing. -/
theorem c10_unknown_unit_passthrough (p : ℚ) (u : Option String) (hp : 0 < p)
    (hu : u ∉ [some "MILLION", some "BILLION", some "UNIT",
      some "UNIT_PER_SQUARE", some "MILLION_PER_SQUARE"]) :
    normalize_price (some p) u = some p := by
  simp only [List.mem_cons, List.mem_singleton, not_or] at hu
  obtain ⟨h1, h2, h3, h4, h5⟩ := hu
  simp [normalize_price, not_le.mpr hp, h1, h2, h3, h4, h5]

/-- Witness for C10: raw price 7 with a missing unit tag, and with the
unrecognized tag "THOUSAND", both pass through unchanged. -/
theorem c10_witness :
    normalize_price (some (7 : ℚ)) none = some 7 ∧
    normalize_price (some (7 : ℚ)) (some "THOUSAND") = some 7 := by
  constructor
  · exact c10_unknown_unit_passthrough 7 none (by norm_num) (by simp)
  · exact c10_unknown_unit_passthrough 7 (some "THOUSAND") (by norm_num) (by simp)

/-- C6 counterexample: the claim says no Row/Range Filter removes a row for a
missing field, but `filter_realistic_prices` (platform clean_data.py) drops
the single row of a one-row table whose price is missing. -/
theorem c6_counterexample :
    filter_realistic_prices 10000 50000000 [none] = ([] : List (Option ℚ)) ∧
    keep_realistic_price 10000 50000000 none = false := by
  constructor <;> rfl

/-- C6 amended: a missing value passes the main pipeline's price filter, the
platform surface filter, and the platform room filter (those filters never
drop a row for a missing field), while the platform price filter
`filter_realistic_prices` drops every row whose price is missing. -/
theorem c6_amended_missing_passes (u : Option String) (minPrice maxPrice : ℚ) :
    keep_price_main none u = true ∧
    keep_surface_info none = true ∧
    keep_room_info none = true ∧
    keep_realistic_price minPrice maxPrice none = false := by
  refine ⟨?_, rfl, rfl, rfl⟩
  simp [keep_price_main]

/-- C8 counterexample: in the platform variant, a present negative surface
(-50) with price 100 yields the finite quotient -2, not missing, although
-50 is not strictly positive. -/
theorem c8_counterexample :
    add_price_per_sqm (some 100) (some (-50)) = some (-2) ∧
    ¬ (0 : ℚ) < -50 := by
  constructor
  · simp [add_price_per_sqm]
    norm_num
  · norm_num

/-- C8 amended: price-per-square-metre equals price/surface exactly where
both are present and the surface is strictly positive, and is missing where
the surface is missing; in the np.where variant (clean_data.py) any
non-positive surface also gives missing, while in the platform variant
(add_derived_features) a zero surface gives missing (the ±infinity produced
by the division is converted to missing) but a negative surface — excluded
upstream by the surface filter — gives the finite quotient.  Neither variant
ever produces an infinity: every output is missing or a finite rational. -/
theorem c8_amended_price_per_sqm (p s : Option ℚ) (sv : ℚ) :
    pricePerSqm_where p none = none ∧
    (s = some sv → sv ≤ 0 → pricePerSqm_where p s = none) ∧
    (s = some sv → 0 < sv → pricePerSqm_where p s = p.map (fun pv => pv / sv)) ∧
    add_price_per_sqm p none = none ∧
    add_price_per_sqm none s = none ∧
    add_price_per_sqm p (some 0) = none ∧
    (s = some sv → 0 < sv → add_price_per_sqm p s = p.map (fun pv => pv / sv)) := by
  refine ⟨rfl, ?_, ?_, ?_, ?_, ?_, ?_⟩
  · rintro rfl hle
    simp [pricePerSqm_where, not_lt.mpr hle]
  · rintro rfl hpos
    simp [pricePerSqm_where, hpos]
  · cases p <;> rfl
  · cases s <;> rfl
  · cases p <;> simp [add_price_per_sqm]
  · rintro rfl hpos
    cases p <;> simp [add_price_per_sqm, ne_of_gt hpos]

/-- Witness for C8 (amended) at price 7, surface 2: both variants give 7/2. -/
theorem c8_witness :
    pricePerSqm_where (some (7 : ℚ)) (some 2) = some (7 / 2) ∧
    add_price_per_sqm (some (7 : ℚ)) (some 2) = some (7 / 2) := by
  have h := c8_amended_price_per_sqm (some (7 : ℚ)) (some 2) 2
  constructor
  · rw [h.2.2.1 rfl (by norm_num)]
    rfl
  · rw [h.2.2.2.2.2.2 rfl (by norm_num)]
    rfl

/-- A numeric frame whose first column is entirely missing: X (all
missing), then the target B, then C. -/
def c1frame : List NumColumn :=
  [⟨"X", [none, none, none]⟩, ⟨"B", [some 7, none, some 9]⟩,
   ⟨"C", [some 100, some 200, some 300]⟩]

/-- C1 counterexample: with the entirely-missing numeric column "X"
preceding the target "B", the imputer discards "X" and the positional
write-back `imputed_values[:, col_index]` selects column "C"'s values: the
originally observed entry 7 of "B" comes back as 100, so an observed entry
is altered by the Imputation Engine, refuting the claim as stated. -/
theorem c1_counterexample :
    imputeNumColumnInFrame (fun _ _ => 55) 0 c1frame "B" =
      some [some 100, some 200, some 300] ∧
    lookupCol c1frame "B" = some ⟨"B", [some 7, none, some 9]⟩ ∧
    (100 : ℚ) ≠ 7 := by
  have hstrat : smart_impute_numerical 0 [some (7 : ℚ), none, some 9] =
      NumStrategy.iterative Estimator.randomForest 10 := by
    simp only [smart_impute_numerical,
      show missingCount [some (7 : ℚ), none, some 9] = 1 from rfl,
      show ([some (7 : ℚ), none, some 9] : List (Option ℚ)).length = 3
        from rfl]
    norm_num
  refine ⟨?_, rfl, by norm_num⟩
  have h1 : imputeNumColumnInFrame (fun _ _ => 55) 0 c1frame "B" =
      (match smart_impute_numerical 0 [some (7 : ℚ), none, some 9] with
       | NumStrategy.simple useMedian =>
         some (simpleFill useMedian [some (7 : ℚ), none, some 9])
       | _ => multiWriteBack (fun _ _ => 55) c1frame "B") := rfl
  rw [h1, hstrat]
  rfl

/-- C1 (amended): when no column of the numeric frame and no column of the
categorical frame is entirely missing — so the imputers discard nothing
and the positional write-back lands on the target — every originally
observed entry of an imputed target column is unchanged, whatever
estimates the multivariate imputers produce, and the count of non-null
entries never decreases. -/
theorem c1_amended_observed_preserved (f g : String → ℕ → ℚ)
    (dfComplete : ℕ) (ncols : List NumColumn) (ccols : List CatColumn)
    (ntarget ctarget : String) (nc : NumColumn) (cc : CatColumn)
    (hn : ∀ c ∈ ncols, nonNullCount c.values ≠ 0)
    (hc : ∀ c ∈ ccols, nonNullCount c.values ≠ 0)
    (hnt : lookupCol ncols ntarget = some nc)
    (hct : lookupCatCol ccols ctarget = some cc) :
    (∃ newN, imputeNumColumnInFrame f dfComplete ncols ntarget =
        some newN ∧
      (∀ (i : ℕ) (v : ℚ), nc.values.get? i = some (some v) →
        newN.get? i = some (some v)) ∧
      nonNullCount nc.values ≤ nonNullCount newN) ∧
    (∃ newC, imputeCatColumnInFrame g ccols ctarget = some newC ∧
      (∀ (i : ℕ) (v : String), cc.values.get? i = some (some v) →
        newC.get? i = some (some v)) ∧
      nonNullCount cc.values ≤ nonNullCount newC) :=
  ⟨imputeNumColumnInFrame_preserves f dfComplete ncols ntarget nc hn hnt,
   imputeCatColumnInFrame_preserves g ccols ctarget cc hc hct⟩

/-- Witness for C1 (amended) on a concrete two-column numeric frame and a
one-column categorical frame without entirely-missing columns, with the
multivariate estimates fixed to 55. -/
theorem c1_witness :
    (∃ newN, imputeNumColumnInFrame (fun _ _ => 55) 2
        [⟨"B", [some 7, none, some 9]⟩,
         ⟨"C", [some 100, some 200, some 300]⟩] "B" = some newN ∧
      (∀ (i : ℕ) (v : ℚ),
        ([some 7, none, some 9] : List (Option ℚ)).get? i =
          some (some v) → newN.get? i = some (some v)) ∧
      nonNullCount [some 7, none, some 9] ≤ nonNullCount newN) ∧
    (∃ newC, imputeCatColumnInFrame (fun _ _ => 55)
        [⟨"L", [some "Alger", none, some "Oran"]⟩] "L" = some newC ∧
      (∀ (i : ℕ) (v : String),
        ([some "Alger", none, some "Oran"] : List (Option String)).get? i =
          some (some v) → newC.get? i = some (some v)) ∧
      nonNullCount [some "Alger", none, some "Oran"] ≤
        nonNullCount newC) :=
  c1_amended_observed_preserved (fun _ _ => 55) (fun _ _ => 55) 2
    [⟨"B", [some 7, none, some 9]⟩, ⟨"C", [some 100, some 200, some 300]⟩]
    [⟨"L", [some "Alger", none, some "Oran"]⟩] "B" "L"
    ⟨"B", [some 7, none, some 9]⟩ ⟨"L", [some "Alger", none, some "Oran"]⟩
    (by decide) (by decide) rfl rfl

/-- A Price column with 1 missing value out of 21 rows (4.76% missing). -/
def c2priceCol : List (Option ℚ) :=
  [none, some 1, some 2, some 3, some 4, some 5, some 6, some 7, some 8,
   some 9, some 10, some 11, some 12, some 13, some 14, some 15, some 16,
   some 17, some 18, some 19, some 20]

/-- C2 (code bug): `impute_real_estate_data` is supposed to apply the
domain-specific overrides (price 'knn', location 'mode', surface
'iterative', rooms 'knn') — its config, comments and caller say so — but it
never forwards them to `fit_transform`, so a Price column with 1 missing
value out of 21 rows (4.76% < 5%) is recorded as imputed with a simple
fill, not k-nearest-neighbour, even under the explicit 'knn' price
strategy. -/
theorem c2_config_ignored :
    (∃ b : Bool,
      strategyFor (impute_real_estate_data_strategies
          ⟨"knn", "mode", "iterative", "knn", false⟩ 20
          [⟨"Price", c2priceCol⟩]) "Price" =
        some (NumStrategy.simple b)) ∧
    (∀ (k : ℕ) (w : Bool),
      strategyFor (impute_real_estate_data_strategies
          ⟨"knn", "mode", "iterative", "knn", false⟩ 20
          [⟨"Price", c2priceCol⟩]) "Price" ≠
        some (NumStrategy.knn k w)) := by
  have hmiss : missingCount c2priceCol = 1 := rfl
  have hlen : c2priceCol.length = 21 := rfl
  have hstrat : smart_impute_numerical 20 c2priceCol =
      NumStrategy.simple (skewAbsGt1 (observed c2priceCol)) := by
    simp only [smart_impute_numerical, hmiss, hlen]
    norm_num
  have hlist : impute_real_estate_data_strategies
      ⟨"knn", "mode", "iterative", "knn", false⟩ 20 [⟨"Price", c2priceCol⟩] =
      [("Price", NumStrategy.simple (skewAbsGt1 (observed c2priceCol)))] := by
    simp only [impute_real_estate_data_strategies, fit_transform_strategies,
      List.filter_cons, List.filter_nil, hmiss]
    norm_num
    exact hstrat
  constructor
  · refine ⟨skewAbsGt1 (observed c2priceCol), ?_⟩
    rw [hlist]
    rfl
  · intro k w hkw
    rw [hlist] at hkw
    have : some (NumStrategy.simple (skewAbsGt1 (observed c2priceCol))) =
        some (NumStrategy.knn k w) := hkw
    cases this

/-- C7 (functional correctness): the auto policy for a numeric column picks
the simple fill (median iff the skewness magnitude exceeds 1, else mean)
under 5% missing, distance-weighted k-nearest-neighbour with
k = min(5, max(3, sqrt(complete rows))) between 5% (inclusive) and 20%
(exclusive), and iterative regression with the random-forest estimator and
iteration cap 10 at 20% or more. -/
theorem c7_auto_policy (dfComplete : ℕ) (col : List (Option ℚ))
    (h : col ≠ []) :
    ((missingCount col : ℚ) * 100 / col.length < 5 →
      smart_impute_numerical dfComplete col =
        NumStrategy.simple (skewAbsGt1 (observed col))) ∧
    (5 ≤ (missingCount col : ℚ) * 100 / col.length →
      (missingCount col : ℚ) * 100 / col.length < 20 →
      smart_impute_numerical dfComplete col =
        NumStrategy.knn (min 5 (max 3 (Nat.sqrt dfComplete))) true) ∧
    (20 ≤ (missingCount col : ℚ) * 100 / col.length →
      smart_impute_numerical dfComplete col =
        NumStrategy.iterative Estimator.randomForest 10) := by
  have hn : col.length ≠ 0 := by
    intro h0
    exact h (List.length_eq_zero.mp h0)
  refine ⟨?_, ?_, ?_⟩
  · intro h5
    simp only [smart_impute_numerical, if_neg hn, if_pos h5]
  · intro h5 h20
    simp only [smart_impute_numerical, if_neg hn, if_neg (not_lt.mpr h5),
      if_pos h20]
  · intro h20
    have h5 : ¬ (missingCount col : ℚ) * 100 / col.length < 5 :=
      not_lt.mpr (by linarith)
    simp only [smart_impute_numerical, if_neg hn, if_neg h5,
      if_neg (not_lt.mpr h20)]

/-- A 20-row numeric column with 2 missing entries (10% missing). -/
def c7col : List (Option ℚ) :=
  [none, none, some 1, some 2, some 3, some 4, some 5, some 6, some 7,
   some 8, some 9, some 10, some 11, some 12, some 13, some 14, some 15,
   some 16, some 17, some 18]

/-- Witness for C7: at 10% missing with 18 complete rows the auto policy
picks k-nearest-neighbour with k = min(5, max(3, sqrt 18)) = 4, distance
weighted. -/
theorem c7_witness :
    smart_impute_numerical 18 c7col = NumStrategy.knn 4 true := by
  have h := (c7_auto_policy 18 c7col (by simp [c7col])).2.1
  have hm : missingCount c7col = 2 := rfl
  have hl : c7col.length = 20 := rfl
  have hpct : (missingCount c7col : ℚ) * 100 / c7col.length = 10 := by
    rw [hm, hl]
    norm_num
  have h2 := h (by rw [hpct]; norm_num) (by rw [hpct]; norm_num)
  rw [h2]
  norm_num [Nat.sqrt]

/-- C3 (error handling): whenever fewer than 10 complete rows are available
(no missing value among the available imputation features and the surface
column), the surface step does not use the multivariate KNN method: it runs
the group-wise median fallback (grouped by wilaya) followed by the
global-median pass. -/
theorem c3_fallback_when_few_complete (f : ℕ → ℚ) (t : List SRow)
    (h1 : completeCount t < 10) (h2 : 0 < missingSurfaceCount t) :
    surface_impute_step f t =
      (SurfMethod.fallback, globalMedianFill (wilayaMedianFill t)) ∧
    (surface_impute_step f t).1 ≠ SurfMethod.knn := by
  have h0 : missingSurfaceCount t ≠ 0 := by omega
  have hc : ¬ 10 < completeCount t := by omega
  refine ⟨?_, ?_⟩ <;>
    simp only [surface_impute_step, if_neg h0, if_neg hc]
  intro hk
  cases hk

/-- A 20-row table at the surface step: 3 surfaces missing (15%), 11 rows
with a missing price, hence only 6 complete rows. -/
def c3tab : List SRow :=
  [⟨some 200, "Alger", "Vente", some 80⟩,
   ⟨some 300, "Alger", "Vente", some 90⟩,
   ⟨some 250, "Alger", "Vente", some 70⟩,
   ⟨some 400, "Oran", "Vente", some 120⟩,
   ⟨some 350, "Oran", "Vente", some 110⟩,
   ⟨some 500, "Oran", "Vente", some 150⟩,
   ⟨none, "Alger", "Vente", some 60⟩,
   ⟨none, "Alger", "Vente", some 65⟩,
   ⟨none, "Alger", "Vente", some 75⟩,
   ⟨none, "Alger", "Vente", some 85⟩,
   ⟨none, "Oran", "Vente", some 95⟩,
   ⟨none, "Oran", "Vente", some 105⟩,
   ⟨none, "Oran", "Vente", some 115⟩,
   ⟨none, "Oran", "Vente", some 125⟩,
   ⟨none, "Alger", "Location", some 55⟩,
   ⟨none, "Alger", "Location", some 50⟩,
   ⟨none, "Oran", "Location", some 45⟩,
   ⟨none, "Alger", "Vente", none⟩,
   ⟨none, "Oran", "Vente", none⟩,
   ⟨none, "Alger", "Location", none⟩]

/-- Witness for C3: on the 20-row table with 15% missing surfaces and only
6 complete rows the step uses the median fallback, not KNN. -/
theorem c3_witness :
    completeCount c3tab < 10 ∧ 0 < missingSurfaceCount c3tab ∧
    (surface_impute_step (fun _ => 0) c3tab).1 = SurfMethod.fallback := by
  have h1 : completeCount c3tab < 10 := by decide
  have h2 : 0 < missingSurfaceCount c3tab := by decide
  refine ⟨h1, h2, ?_⟩
  rw [(c3_fallback_when_few_complete (fun _ => 0) c3tab h1 h2).1]

/-- A missing critical field in every critical field is in particular one
missing critical field. -/
theorem criticalAllMissing_anyMissing (r : CRow)
    (h : criticalAllMissing r = true) : criticalAnyMissing r = true := by
  cases r with
  | mk t l w p =>
    simp only [criticalAllMissing, Bool.and_eq_true] at h
    simp [criticalAnyMissing, h.1.1.1]

/-- C9 counterexample: a row missing only its Location (transaction type,
wilaya and price present) is not missing ALL critical fields, yet when the
imputation attempt raises (here before any in-place write), `clean_data`
drops it — the fallback is `dropna` with the default `how='any'`, not the
claimed drop-only-if-all-missing policy.  Moreover, when the in-place
attempt has already imputed the Location before raising, the row survives
with the imputed value: the fallback keeps a partially-imputed table. -/
theorem c9_counterexample :
    clean_data (fun t => Except.error ("fit failure", t))
      [⟨some "SALE", none, some "Algiers", some 100⟩] = [] ∧
    criticalAllMissing ⟨some "SALE", none, some "Algiers", some 100⟩ =
      false ∧
    clean_data (fun _ => Except.error ("fit failure",
        [⟨some "SALE", some "Imputed", some "Algiers", some 100⟩]))
      [⟨some "SALE", none, some "Algiers", some 100⟩] =
      [⟨some "SALE", some "Imputed", some "Algiers", some 100⟩] := by
  refine ⟨rfl, rfl, rfl⟩

/-- C9 amended: if the whole-table imputation attempt raises any
exception, the cleaning stage catches it and continues; the fallback drops
exactly the rows missing at least one designated critical field, applied
to the table as already mutated by the in-place attempt — so rows whose
critical fields were imputed before the exception survive and the result
can retain partially-imputed data.  When the exception precedes any
mutation, the result is exactly the input rows with every critical field
present. -/
theorem c9_amended_fallback
    (impute : List CRow → Except (String × List CRow) (List CRow))
    (df mutated : List CRow) (e : String)
    (h : impute (df.filter (fun r => !criticalAllMissing r)) =
      Except.error (e, mutated)) :
    clean_data impute df =
      mutated.filter (fun r => !criticalAnyMissing r) ∧
    (mutated = df.filter (fun r => !criticalAllMissing r) →
      clean_data impute df =
        df.filter (fun r => !criticalAnyMissing r)) := by
  have h1 : clean_data impute df =
      mutated.filter (fun r => !criticalAnyMissing r) := by
    simp only [clean_data]
    rw [h]
  refine ⟨h1, ?_⟩
  intro hmut
  rw [h1, hmut, List.filter_filter]
  apply List.filter_congr
  intro r _
  cases hany : criticalAnyMissing r
  · have hall : criticalAllMissing r = false := by
      cases hall2 : criticalAllMissing r
      · rfl
      · rw [criticalAllMissing_anyMissing r hall2] at hany
        cases hany
    simp [hall]
  · simp

/-- Witness for C9 (amended): a two-row table whose imputation attempt
fails before mutating anything keeps exactly the fully populated row. -/
theorem c9_witness :
    clean_data (fun t => Except.error ("boom", t))
      [⟨some "SALE", none, some "Algiers", some 100⟩,
       ⟨some "RENT", some "Hydra", some "Algiers", some 90⟩] =
      ([⟨some "SALE", none, some "Algiers", some 100⟩,
        ⟨some "RENT", some "Hydra", some "Algiers", some 90⟩] :
          List CRow).filter (fun r => !criticalAnyMissing r) ∧
    (([⟨some "SALE", none, some "Algiers", some 100⟩,
       ⟨some "RENT", some "Hydra", some "Algiers", some 90⟩] :
          List CRow).filter (fun r => !criticalAnyMissing r)) =
      [⟨some "RENT", some "Hydra", some "Algiers", some 90⟩] :=
  ⟨(c9_amended_fallback (fun t => Except.error ("boom", t))
      [⟨some "SALE", none, some "Algiers", some 100⟩,
       ⟨some "RENT", some "Hydra", some "Algiers", some 90⟩]
      (([⟨some "SALE", none, some "Algiers", some 100⟩,
         ⟨some "RENT", some "Hydra", some "Algiers", some 90⟩] :
            List CRow).filter (fun r => !criticalAllMissing r))
      "boom" rfl).2 rfl,
    rfl⟩

/-- C5 (invariants): after surface and room cleaning every non-null cleaned
surface lies in [5, 5000] and every non-null cleaned room count lies in
[1, 20]; an out-of-bounds parsed surface is turned into missing at its row
(not clamped), and neither cleaning step drops a row (column lengths are
preserved). -/
theorem c5_bounds_after_cleaning (surfCol : List (Option ℚ))
    (roomsCol : List (Option String)) :
    (∀ x ∈ surfaceBoundsMask surfCol, ∀ v : ℚ, x = some v → 5 ≤ v ∧ v ≤ 5000) ∧
    (∀ i (v : ℚ), surfCol.get? i = some (some v) → ¬(5 ≤ v ∧ v ≤ 5000) →
      (surfaceBoundsMask surfCol).get? i = some none) ∧
    (surfaceBoundsMask surfCol).length = surfCol.length ∧
    (∀ x ∈ roomsCol.map extract_rooms, ∀ n : ℕ, x = some n → 1 ≤ n ∧ n ≤ 20) ∧
    (roomsCol.map extract_rooms).length = roomsCol.length := by
  refine ⟨?_, ?_, List.length_map _ _, ?_, List.length_map _ _⟩
  · intro x hx v hv
    rcases List.mem_map.mp hx with ⟨c, _, hc⟩
    subst hv
    cases c with
    | none => simp [surfaceBoundsMask] at hc
    | some w =>
      have hc2 : (if 5 ≤ w ∧ w ≤ 5000 then (some w : Option ℚ) else none) =
          some v := hc
      by_cases hb : 5 ≤ w ∧ w ≤ 5000
      · rw [if_pos hb] at hc2
        cases hc2
        exact hb
      · rw [if_neg hb] at hc2
        cases hc2
  · intro i v hget hout
    have h : (surfaceBoundsMask surfCol).get? i =
        (surfCol.get? i).map (fun c =>
          match c with
          | some w => if 5 ≤ w ∧ w ≤ 5000 then some w else none
          | none => none) := List.get?_map _ _ _
    rw [h, hget]
    simp [if_neg hout]
  · intro x hx n hn
    rcases List.mem_map.mp hx with ⟨s, _, hs⟩
    subst hn
    cases s with
    | none => simp [extract_rooms] at hs
    | some str =>
      simp only [extract_rooms] at hs
      cases hds : firstDigitRun (stripBracketsQuotes str.data) with
      | none => rw [hds] at hs; cases hs
      | some ds =>
        rw [hds] at hs
        by_cases hb : 1 ≤ digitsToNat ds ∧ digitsToNat ds ≤ 20
        · simp only [if_pos hb] at hs
          cases hs
          exact hb
        · simp only [if_neg hb] at hs
          cases hs

/-- Witness for C5: a surface column with an out-of-bounds entry 6000 (set to
missing) and an in-bounds entry 100 (kept), and a rooms column parsing
"[12]" to 12. -/
theorem c5_witness :
    (∀ x ∈ surfaceBoundsMask [some 6000, some 100, none],
      ∀ v : ℚ, x = some v → 5 ≤ v ∧ v ≤ 5000) ∧
    (∀ i (v : ℚ), ([some 6000, some 100, none] : List (Option ℚ)).get? i =
        some (some v) → ¬(5 ≤ v ∧ v ≤ 5000) →
      (surfaceBoundsMask [some 6000, some 100, none]).get? i = some none) ∧
    (surfaceBoundsMask [some 6000, some 100, none]).length =
      ([some 6000, some 100, none] : List (Option ℚ)).length ∧
    (∀ x ∈ ([some "[12]", none] : List (Option String)).map extract_rooms,
      ∀ n : ℕ, x = some n → 1 ≤ n ∧ n ≤ 20) ∧
    (([some "[12]", none] : List (Option String)).map extract_rooms).length =
      ([some "[12]", none] : List (Option String)).length :=
  c5_bounds_after_cleaning [some 6000, some 100, none] [some "[12]", none]

end RealEstate
